import Mathlib

/-!
Shallow embedding of the transactional-outbox dispatcher of the
`interview-starter` repository.

Sources embedded here:
  * `lib/outbox-processor.ts`   — constants `MAX_RETRIES`, `BATCH_SIZE`, the
    handler registry `eventHandlers`, `processEvent`, `pollAndProcess`;
  * `lib/outbox.ts`             — `createOutboxEvent`;
  * `pages/api/cron/weekly-digest.ts` — the cron `handler` (its idempotency
    and batch-transaction logic).

The relational store is modelled as an in-memory record of tables (`Db`).
Prisma writes become pure state transformations; `prisma.$transaction` is
modelled by the fact that one Lean function application produces the whole
next state (all-or-nothing), and, for the enqueue contract, by
`runTransaction`, which restores the pre-state when the body fails — the
collaborator contract stated by the spec for Storage.

Handler invocations perform external I/O whose outcome the dispatcher cannot
control, so `processEvent` takes an `invoke` oracle mapping the event type
and raw payload to this invocation's outcome: success with optional audit
data (what the TS handler returns), or failure with an error message (a
thrown/rejected handler or a `JSON.parse` deserialization error).
-/

namespace Outbox

/-- `MAX_RETRIES` from `lib/outbox-processor.ts`. -/
def MAX_RETRIES : Nat := 3

/-- `BATCH_SIZE` from `lib/outbox-processor.ts`. -/
def BATCH_SIZE : Nat := 10

/-- One row of the `OutboxEvent` table (Prisma schema / migration).
Timestamps are naturals (epoch milliseconds). -/
structure OutboxEvent where
  id : String
  aggregateId : String
  eventType : String
  payload : String
  processed : Bool
  processedAt : Option Nat
  attempts : Nat
  lastError : Option String
  createdAt : Nat
  deriving Repr, DecidableEq

/-- One row of the `AuditLog` table. -/
structure AuditLog where
  actor : String
  action : String
  targetId : Option String
  metadata : Option String
  createdAt : Nat
  deriving Repr, DecidableEq

/-- One row of the `User` table (only the fields the digest endpoint reads). -/
structure User where
  id : String
  email : String
  name : String
  deletedAt : Option Nat
  deriving Repr, DecidableEq

/-- One row of the `DigestBatch` table. -/
structure DigestBatch where
  idempotencyKey : Option String
  userCount : Nat
  status : String
  createdAt : Nat
  deriving Repr, DecidableEq

/-- The in-memory model of the relational store: the four tables the
dispatcher subsystem touches, plus a fresh-id counter standing in for the
store's unique id generator. -/
structure Db where
  users : List User
  events : List OutboxEvent
  auditLogs : List AuditLog
  digestBatches : List DigestBatch
  nextId : Nat
  deriving Repr, DecidableEq

/-- What the handler returns on success: `AuditLogData` from
`lib/outbox-processor.ts` (`metadata` is kept in serialized form, i.e. after
`JSON.stringify`), or `null` (`Option.none` at the call site). -/
structure AuditLogData where
  actor : String
  action : String
  targetId : Option String
  metadata : Option String
  deriving Repr, DecidableEq

/-- Outcome of one handler invocation (including payload deserialization):
the resolved `AuditLogData | null`, or a rejection/throw with its message. -/
inductive HandlerOutcome where
  | success (auditLogData : Option AuditLogData)
  | failure (errorMessage : String)
  deriving Repr, DecidableEq

/-- An invocation oracle: given `eventType` and the raw `payload` string, the
outcome of running `JSON.parse` and the registered handler this time. -/
def Invoke : Type := String → String → HandlerOutcome

/-- The domain of the `eventHandlers` registry in `lib/outbox-processor.ts`:
exactly the event types that have a registered handler. -/
def registeredEventTypes : List String :=
  ["user.created", "digest.weekly", "user.updated", "user.deleted",
   "organization.created"]

/-- `eventHandlers[event.eventType]` is defined iff the type is registered. -/
def hasHandler (eventType : String) : Bool :=
  registeredEventTypes.contains eventType

/-- `prisma.outboxEvent.update({ where: { id }, data })`: rewrite the rows
whose `id` matches. -/
def updateEvent (db : Db) (id : String) (f : OutboxEvent → OutboxEvent) : Db :=
  { db with events := db.events.map fun e => if e.id = id then f e else e }

/-- The `AuditLog` row written by the success transaction of `processEvent`:
`targetId: auditLogData.targetId || null` (JS falsiness turns an empty string
into `null`), `metadata` already serialized. -/
def mkAuditLog (d : AuditLogData) (now : Nat) : AuditLog :=
  { actor := d.actor
    action := d.action
    targetId := match d.targetId with
      | some t => if t = "" then none else some t
      | none => none
    metadata := d.metadata
    createdAt := now }

/-- `processEvent` from `lib/outbox-processor.ts`, acting on one fetched
snapshot row `event`.  Branches, in source order:
no registered handler → terminal abandon;
handler success → one transaction marking processed and (if the handler
returned data) inserting the audit row;
handler failure → retry bookkeeping, terminal once `attempts` reaches
`MAX_RETRIES`. -/
def processEvent (invoke : Invoke) (now : Nat) (db : Db) (event : OutboxEvent) : Db :=
  if !hasHandler event.eventType then
    updateEvent db event.id fun e =>
      { e with processed := true, processedAt := some now,
               lastError := some ("No handler registered for event type: " ++ event.eventType) }
  else
    match invoke event.eventType event.payload with
    | .success auditLogData =>
      let db1 := updateEvent db event.id fun e =>
        { e with processed := true, processedAt := some now,
                 attempts := event.attempts + 1 }
      match auditLogData with
      | some d => { db1 with auditLogs := db1.auditLogs ++ [mkAuditLog d now] }
      | none => db1
    | .failure errorMessage =>
      let newAttempts := event.attempts + 1
      if MAX_RETRIES ≤ newAttempts then
        updateEvent db event.id fun e =>
          { e with processed := true, processedAt := some now,
                   attempts := newAttempts,
                   lastError := some ("Max retries (" ++ toString MAX_RETRIES
                     ++ ") exceeded: " ++ errorMessage) }
      else
        updateEvent db event.id fun e =>
          { e with attempts := newAttempts, lastError := some errorMessage }

/-- The fetch of `pollAndProcess`:
`findMany({ where: { processed: false, attempts: { lt: MAX_RETRIES } },
orderBy: { createdAt: 'asc' }, take: BATCH_SIZE })`. -/
def fetchBatch (db : Db) : List OutboxEvent :=
  (List.insertionSort (fun a b => a.createdAt ≤ b.createdAt)
      (db.events.filter fun e =>
        !e.processed && decide (e.attempts < MAX_RETRIES))).take BATCH_SIZE

/-- `pollAndProcess` from `lib/outbox-processor.ts`: fetch a batch, then run
`processEvent` on the fetched snapshots sequentially, in fetch order. -/
def pollAndProcess (invoke : Invoke) (now : Nat) (db : Db) : Db :=
  (fetchBatch db).foldl (processEvent invoke now) db

/-- `n` poll cycles of the started processor.  Cycle `i` uses invocation
oracle `oracle i` and wall clock `clock i`; `runCycles (n+1)` performs cycle
`n` on the state left by the first `n` cycles. -/
def runCycles (oracle : Nat → Invoke) (clock : Nat → Nat) : Nat → Db → Db
  | 0, db => db
  | n + 1, db => pollAndProcess (oracle n) (clock n) (runCycles oracle clock n db)

/-- Parameters of `createOutboxEvent` in `lib/outbox.ts` (`payload` is kept
in serialized form, i.e. after `JSON.stringify`). -/
structure CreateOutboxEventParams where
  aggregateId : String
  eventType : String
  payload : String
  deriving Repr, DecidableEq

/-- The row `prisma.outboxEvent.create` builds for `createOutboxEvent`: only
`aggregateId`, `eventType`, `payload` are supplied; the schema defaults give
`processed=false`, `attempts=0`, `processedAt=null`, `lastError=null`,
a generated `id` and `createdAt=now`. -/
def createOutboxEventRow (p : CreateOutboxEventParams) (id : String) (now : Nat) :
    OutboxEvent :=
  { id := id, aggregateId := p.aggregateId, eventType := p.eventType,
    payload := p.payload, processed := false, processedAt := none,
    attempts := 0, lastError := none, createdAt := now }

/-- `createOutboxEvent` from `lib/outbox.ts`: insert one `OutboxEvent` row on
the supplied client/transaction handle and return the created row. -/
def createOutboxEvent (p : CreateOutboxEventParams) (now : Nat) (db : Db) :
    OutboxEvent × Db :=
  let row := createOutboxEventRow p ("evt-" ++ toString db.nextId) now
  (row, { db with events := db.events ++ [row], nextId := db.nextId + 1 })

/-- The Storage collaborator's transaction contract (spec §6/§4.1, delegated
to Prisma's `$transaction`): if the body succeeds its state commits, if it
fails the pre-state is restored (rollback). -/
def runTransaction (db : Db) (body : Db → Except String Db) :
    Except String Db × Db :=
  match body db with
  | .ok db1 => (.ok db1, db1)
  | .error e => (.error e, db)

/-- `createOutboxEvent` on a fallible storage handle: the function performs a
single `create` call and returns its result directly, so a storage error is
surfaced to the caller uncaught. -/
def createOutboxEventRes (storageError : Option String)
    (p : CreateOutboxEventParams) (now : Nat) (db : Db) :
    Except String (OutboxEvent × Db) :=
  match storageError with
  | some msg => .error msg
  | none => .ok (createOutboxEvent p now db)

/-- The JSON body the weekly-digest endpoint answers with (only the fields
the spec and claims mention; `status` is the HTTP status code, `batchStatus`
is the `status` field of a replayed `DigestBatch` row). -/
structure DigestResponse where
  status : Nat
  message : String
  userCount : Option Nat
  batchStatus : Option String
  idempotent : Bool
  deriving Repr, DecidableEq

/-- `findUnique({ where: { idempotencyKey } })` on `DigestBatch`. -/
def findDigestBatch (db : Db) (key : String) : Option DigestBatch :=
  db.digestBatches.find? fun b => b.idempotencyKey = some key

/-- The serialized `payload` the digest endpoint builds per user. -/
def digestPayload (u : User) : String :=
  "userId=" ++ u.id ++ ";email=" ++ u.email ++ ";name=" ++ u.name

/-- The `createOutboxEvent` arguments the digest endpoint builds per user. -/
def digestParams (u : User) : CreateOutboxEventParams :=
  { aggregateId := u.id, eventType := "digest.weekly",
    payload := digestPayload u }

/-- The body of the cron handler in `pages/api/cron/weekly-digest.ts` after
the method/auth guards (the try block around the batch).  `txFails = true`
models the `$transaction` throwing: its writes are rolled back and the catch
block runs, recording a `failed` `DigestBatch` row outside the transaction
when a key was supplied, then answering 500. -/
def weeklyDigest (idempotencyKey : Option String) (now : Nat) (txFails : Bool)
    (db : Db) : DigestResponse × Db :=
  let replayOrRun : Option DigestBatch :=
    match idempotencyKey with
    | some k => findDigestBatch db k
    | none => none
  match replayOrRun with
  | some existingBatch =>
    ({ status := 200
       message := if existingBatch.status = "completed" then
           "Digest events already created for this idempotency key"
         else
           "Previous attempt with this idempotency key failed"
       userCount := some existingBatch.userCount
       batchStatus := some existingBatch.status
       idempotent := true }, db)
  | none =>
    let users := db.users.filter fun u => u.deletedAt.isNone
    if users.isEmpty then
      ({ status := 200, message := "No active users to send digest to",
         userCount := some 0, batchStatus := none, idempotent := false }, db)
    else if txFails then
      let db1 :=
        match idempotencyKey with
        | some k =>
          { db with digestBatches := db.digestBatches ++
              [{ idempotencyKey := some k, userCount := 0, status := "failed",
                 createdAt := now }] }
        | none => db
      ({ status := 500, message := "Internal server error",
         userCount := none, batchStatus := none, idempotent := false }, db1)
    else
      let db1 := users.foldl
        (fun d u => (createOutboxEvent (digestParams u) now d).2) db
      let db2 := { db1 with digestBatches := db1.digestBatches ++
        [{ idempotencyKey := idempotencyKey, userCount := users.length,
           status := "completed", createdAt := now }] }
      ({ status := 200, message := "Weekly digest events created successfully",
         userCount := some users.length, batchStatus := none,
         idempotent := false }, db2)

/-! ### Structural lemmas about the dispatcher -/

/-- `findFirst` by primary key: the row of the `OutboxEvent` table with the
given `id` (the first one, which is unique once ids are). -/
def findRow (db : Db) (id : String) : Option OutboxEvent :=
  db.events.find? fun e => e.id = id

/-- The row-level transformation `processEvent` applies to the row whose id
matches the fetched snapshot `event` (extracted from the branches of
`processEvent`). -/
def eventTransform (invoke : Invoke) (now : Nat) (event : OutboxEvent) :
    OutboxEvent → OutboxEvent :=
  if !hasHandler event.eventType then
    fun e =>
      { e with processed := true, processedAt := some now,
               lastError := some ("No handler registered for event type: " ++ event.eventType) }
  else
    match invoke event.eventType event.payload with
    | .success _ =>
      fun e =>
        { e with processed := true, processedAt := some now,
                 attempts := event.attempts + 1 }
    | .failure errorMessage =>
      if MAX_RETRIES ≤ event.attempts + 1 then
        fun e =>
          { e with processed := true, processedAt := some now,
                   attempts := event.attempts + 1,
                   lastError := some ("Max retries (" ++ toString MAX_RETRIES
                     ++ ") exceeded: " ++ errorMessage) }
      else
        fun e =>
          { e with attempts := event.attempts + 1,
                   lastError := some errorMessage }

/-- The audit row (if any) `processEvent` inserts for the fetched snapshot
`event`: one row exactly when a handler is registered and this invocation
succeeds returning non-null data. -/
def auditOf (invoke : Invoke) (now : Nat) (event : OutboxEvent) :
    Option AuditLog :=
  if hasHandler event.eventType then
    match invoke event.eventType event.payload with
    | .success (some d) => some (mkAuditLog d now)
    | _ => none
  else none

lemma eventTransform_id (invoke : Invoke) (now : Nat) (event x : OutboxEvent) :
    (eventTransform invoke now event x).id = x.id := by
  unfold eventTransform
  cases h : hasHandler event.eventType
  · simp
  · cases hi : invoke event.eventType event.payload with
    | success d => simp
    | failure m =>
      by_cases hr : MAX_RETRIES ≤ event.attempts + 1 <;> simp [hr]

lemma processEvent_events (invoke : Invoke) (now : Nat) (db : Db) (ev : OutboxEvent) :
    (processEvent invoke now db ev).events
      = db.events.map fun e => if e.id = ev.id then eventTransform invoke now ev e else e := by
  unfold processEvent eventTransform
  cases h : hasHandler ev.eventType
  · simp [updateEvent]
  · cases hi : invoke ev.eventType ev.payload with
    | success d => cases d <;> simp [updateEvent]
    | failure m =>
      by_cases hr : MAX_RETRIES ≤ ev.attempts + 1 <;> simp [hr, updateEvent]

lemma processEvent_auditLogs (invoke : Invoke) (now : Nat) (db : Db) (ev : OutboxEvent) :
    (processEvent invoke now db ev).auditLogs
      = db.auditLogs ++ (auditOf invoke now ev).toList := by
  unfold processEvent auditOf
  cases h : hasHandler ev.eventType
  · simp [updateEvent]
  · cases hi : invoke ev.eventType ev.payload with
    | success d => cases d <;> simp [updateEvent]
    | failure m =>
      by_cases hr : MAX_RETRIES ≤ ev.attempts + 1 <;> simp [hr, updateEvent]

lemma processEvent_users (invoke : Invoke) (now : Nat) (db : Db) (ev : OutboxEvent) :
    (processEvent invoke now db ev).users = db.users := by
  unfold processEvent
  cases h : hasHandler ev.eventType
  · simp [updateEvent]
  · cases hi : invoke ev.eventType ev.payload with
    | success d => cases d <;> simp [updateEvent]
    | failure m =>
      by_cases hr : MAX_RETRIES ≤ ev.attempts + 1 <;> simp [hr, updateEvent]

lemma processEvent_digestBatches (invoke : Invoke) (now : Nat) (db : Db) (ev : OutboxEvent) :
    (processEvent invoke now db ev).digestBatches = db.digestBatches := by
  unfold processEvent
  cases h : hasHandler ev.eventType
  · simp [updateEvent]
  · cases hi : invoke ev.eventType ev.payload with
    | success d => cases d <;> simp [updateEvent]
    | failure m =>
      by_cases hr : MAX_RETRIES ≤ ev.attempts + 1 <;> simp [hr, updateEvent]

lemma guardTransform_id (invoke : Invoke) (now : Nat) (ev e : OutboxEvent) :
    (if e.id = ev.id then eventTransform invoke now ev e else e).id = e.id := by
  by_cases h : e.id = ev.id <;> simp [h, eventTransform_id]

lemma findRow_id (db : Db) (i : String) (e : OutboxEvent)
    (h : findRow db i = some e) : e.id = i := by
  have := List.find?_some h
  simpa using this

lemma findRow_processEvent (invoke : Invoke) (now : Nat) (db : Db)
    (ev : OutboxEvent) (i : String) :
    findRow (processEvent invoke now db ev) i
      = (findRow db i).map
          (fun e => if e.id = ev.id then eventTransform invoke now ev e else e) := by
  unfold findRow
  rw [processEvent_events, List.find?_map]
  have hp : ((fun e : OutboxEvent => decide (e.id = i)) ∘
      fun e => if e.id = ev.id then eventTransform invoke now ev e else e)
      = fun e : OutboxEvent => decide (e.id = i) := by
    funext e
    simp [Function.comp, guardTransform_id]
  rw [hp]

lemma findRow_processEvent_ne (invoke : Invoke) (now : Nat) (db : Db)
    (ev : OutboxEvent) (i : String) (hne : ev.id ≠ i) :
    findRow (processEvent invoke now db ev) i = findRow db i := by
  rw [findRow_processEvent]
  cases hf : findRow db i with
  | none => rfl
  | some e =>
    have he : e.id = i := findRow_id db i e hf
    have : ¬e.id = ev.id := by
      rw [he]; exact fun h => hne h.symm
    simp [this]

lemma findRow_processEvent_self (invoke : Invoke) (now : Nat) (db : Db)
    (ev : OutboxEvent) :
    findRow (processEvent invoke now db ev) ev.id
      = (findRow db ev.id).map (eventTransform invoke now ev) := by
  rw [findRow_processEvent]
  cases hf : findRow db ev.id with
  | none => rfl
  | some e =>
    have he : e.id = ev.id := findRow_id db ev.id e hf
    simp [he]

lemma foldl_processEvent_auditLogs (invoke : Invoke) (now : Nat) :
    ∀ (l : List OutboxEvent) (db : Db),
      (l.foldl (processEvent invoke now) db).auditLogs
        = db.auditLogs ++ l.filterMap (auditOf invoke now)
  | [], db => by simp
  | a :: t, db => by
    rw [List.foldl_cons, foldl_processEvent_auditLogs invoke now t _,
        processEvent_auditLogs]
    cases h : auditOf invoke now a <;> simp [List.filterMap_cons, h]

lemma foldl_processEvent_findRow_ne (invoke : Invoke) (now : Nat) :
    ∀ (l : List OutboxEvent) (db : Db) (i : String), (∀ e ∈ l, e.id ≠ i) →
      findRow (l.foldl (processEvent invoke now) db) i = findRow db i
  | [], _, _, _ => rfl
  | a :: t, db, i, h => by
    rw [List.foldl_cons,
        foldl_processEvent_findRow_ne invoke now t _ i
          (fun e he => h e (List.mem_cons_of_mem a he)),
        findRow_processEvent_ne _ _ _ _ _ (h a (List.mem_cons_self a t))]

lemma foldl_processEvent_findRow_mem (invoke : Invoke) (now : Nat) :
    ∀ (l : List OutboxEvent) (db : Db) (e : OutboxEvent),
      l.Pairwise (fun a b => a.id ≠ b.id) → e ∈ l →
      findRow (l.foldl (processEvent invoke now) db) e.id
        = (findRow db e.id).map (eventTransform invoke now e)
  | [], _, e, _, he => absurd he (List.not_mem_nil e)
  | a :: t, db, e, hp, he => by
    rw [List.foldl_cons]
    rcases List.mem_cons.mp he with rfl | ht
    · have hne : ∀ x ∈ t, x.id ≠ e.id := by
        intro x hx hxe
        exact ((List.pairwise_cons.mp hp).1 x hx) hxe.symm
      rw [foldl_processEvent_findRow_ne invoke now t _ e.id hne,
          findRow_processEvent_self]
    · have hane : a.id ≠ e.id := (List.pairwise_cons.mp hp).1 e ht
      rw [foldl_processEvent_findRow_mem invoke now t _ e
            (List.pairwise_cons.mp hp).2 ht,
          findRow_processEvent_ne _ _ _ _ _ hane]

lemma find?_id_of_mem :
    ∀ (l : List OutboxEvent), (l.map fun x => x.id).Nodup → ∀ e ∈ l,
      l.find? (fun x => x.id = e.id) = some e
  | [], _, e, he => absurd he (List.not_mem_nil e)
  | a :: t, hn, e, he => by
    rcases List.mem_cons.mp he with rfl | ht
    · simp [List.find?]
    · have ha : ¬a.id = e.id := by
        intro h
        rw [List.map_cons, List.nodup_cons] at hn
        exact hn.1 (h ▸ List.mem_map_of_mem _ ht)
      have hstep : ((a :: t).find? fun x => x.id = e.id)
          = t.find? fun x => x.id = e.id := by
        simp [List.find?, ha]
      rw [hstep]
      exact find?_id_of_mem t (by
        rw [List.map_cons, List.nodup_cons] at hn
        exact hn.2) e ht

lemma findRow_of_mem (db : Db) (e : OutboxEvent)
    (hids : (db.events.map fun x => x.id).Nodup) (he : e ∈ db.events) :
    findRow db e.id = some e :=
  find?_id_of_mem db.events hids e he

lemma fetchBatch_mem (db : Db) (e : OutboxEvent) (he : e ∈ fetchBatch db) :
    e ∈ db.events ∧ e.processed = false ∧ e.attempts < MAX_RETRIES := by
  unfold fetchBatch at he
  have h1 := List.take_subset _ _ he
  have h2 := (List.perm_insertionSort _ _).mem_iff.mp h1
  have h3 := List.mem_filter.mp h2
  refine ⟨h3.1, ?_, ?_⟩
  · have := h3.2
    simp only [Bool.and_eq_true, Bool.not_eq_true', decide_eq_true_eq] at this
    exact this.1
  · have := h3.2
    simp only [Bool.and_eq_true, Bool.not_eq_true', decide_eq_true_eq] at this
    exact this.2

lemma fetchBatch_length_le (db : Db) : (fetchBatch db).length ≤ BATCH_SIZE := by
  unfold fetchBatch
  rw [List.length_take]
  exact min_le_left _ _

lemma fetchBatch_sorted (db : Db) :
    (fetchBatch db).Pairwise fun a b => a.createdAt ≤ b.createdAt := by
  unfold fetchBatch
  apply List.Pairwise.sublist (List.take_sublist _ _)
  haveI : IsTotal OutboxEvent fun a b => a.createdAt ≤ b.createdAt :=
    ⟨fun a b => Nat.le_total _ _⟩
  haveI : IsTrans OutboxEvent fun a b => a.createdAt ≤ b.createdAt :=
    ⟨fun a b c => Nat.le_trans⟩
  exact List.sorted_insertionSort _ _

lemma fetchBatch_ids_nodup (db : Db)
    (hids : (db.events.map fun e => e.id).Nodup) :
    (fetchBatch db).Pairwise fun a b => a.id ≠ b.id := by
  have h1 : ((db.events.filter fun e => !e.processed
      && decide (e.attempts < MAX_RETRIES)).map fun e => e.id).Nodup :=
    ((List.filter_sublist _).map _).nodup hids
  have h2 : ((List.insertionSort (fun a b => a.createdAt ≤ b.createdAt)
      (db.events.filter fun e => !e.processed
        && decide (e.attempts < MAX_RETRIES))).map fun e => e.id).Nodup := by
    exact ((List.perm_insertionSort _ _).map _).nodup_iff.mpr h1
  have h3 : ((fetchBatch db).map fun e => e.id).Nodup := by
    unfold fetchBatch
    exact ((List.take_sublist _ _).map _).nodup h2
  exact List.pairwise_map.mp h3

lemma pollAndProcess_of_all_processed (invoke : Invoke) (now : Nat) (db : Db)
    (h : ∀ x ∈ db.events, x.processed = true) :
    pollAndProcess invoke now db = db := by
  unfold pollAndProcess
  have hnil : fetchBatch db = [] := by
    unfold fetchBatch
    have hf : db.events.filter
        (fun e => !e.processed && decide (e.attempts < MAX_RETRIES)) = [] := by
      rw [List.filter_eq_nil_iff]
      intro a ha
      simp [h a ha]
    rw [hf]
    rfl
  rw [hnil]
  rfl

lemma runCycles_stable (oracle : Nat → Invoke) (clock : Nat → Nat)
    (db0 S : Db) (k : Nat) (hS : runCycles oracle clock k db0 = S)
    (hterm : ∀ x ∈ S.events, x.processed = true) :
    ∀ n, k ≤ n → runCycles oracle clock n db0 = S := by
  intro n hn
  induction n with
  | zero =>
    have : k = 0 := Nat.le_zero.mp hn
    rw [← this]
    exact hS
  | succ m ih =>
    rcases Nat.lt_or_ge m k with hlt | hge
    · have : k = m + 1 := Nat.le_antisymm hn hlt
      rw [← this]
      exact hS
    · show pollAndProcess (oracle m) (clock m) (runCycles oracle clock m db0) = S
      rw [ih hge]
      exact pollAndProcess_of_all_processed _ _ _ hterm

lemma processEvent_nextId (invoke : Invoke) (now : Nat) (db : Db) (ev : OutboxEvent) :
    (processEvent invoke now db ev).nextId = db.nextId := by
  unfold processEvent
  cases h : hasHandler ev.eventType
  · simp [updateEvent]
  · cases hi : invoke ev.eventType ev.payload with
    | success d => cases d <;> simp [updateEvent]
    | failure m =>
      by_cases hr : MAX_RETRIES ≤ ev.attempts + 1 <;> simp [hr, updateEvent]

lemma Db_ext (a b : Db) (h1 : a.users = b.users) (h2 : a.events = b.events)
    (h3 : a.auditLogs = b.auditLogs) (h4 : a.digestBatches = b.digestBatches)
    (h5 : a.nextId = b.nextId) : a = b := by
  cases a
  cases b
  simp_all

lemma fetchBatch_single (db : Db) (e : OutboxEvent) (hdb : db.events = [e])
    (h1 : e.processed = false) (h2 : e.attempts < MAX_RETRIES) :
    fetchBatch db = [e] := by
  unfold fetchBatch
  rw [hdb]
  have hf : List.filter
      (fun x => !x.processed && decide (x.attempts < MAX_RETRIES)) [e] = [e] := by
    simp [h1, h2]
  rw [hf]
  rfl

lemma processEvent_db_single (invoke : Invoke) (now : Nat) (db : Db)
    (e : OutboxEvent) (hdb : db.events = [e]) :
    processEvent invoke now db e
      = { db with events := [eventTransform invoke now e e],
                  auditLogs := db.auditLogs ++ (auditOf invoke now e).toList } := by
  apply Db_ext
  · rw [processEvent_users]
  · rw [processEvent_events, hdb]
    simp
  · rw [processEvent_auditLogs]
  · rw [processEvent_digestBatches]
  · rw [processEvent_nextId]

lemma pollAndProcess_single (invoke : Invoke) (now : Nat) (db : Db)
    (e : OutboxEvent) (hdb : db.events = [e]) (h1 : e.processed = false)
    (h2 : e.attempts < MAX_RETRIES) :
    pollAndProcess invoke now db
      = { db with events := [eventTransform invoke now e e],
                  auditLogs := db.auditLogs ++ (auditOf invoke now e).toList } := by
  unfold pollAndProcess
  rw [fetchBatch_single db e hdb h1 h2]
  rw [show ([e].foldl (processEvent invoke now) db) = processEvent invoke now db e
    from rfl]
  exact processEvent_db_single invoke now db e hdb

lemma eventTransform_no_handler (invoke : Invoke) (now : Nat) (e : OutboxEvent)
    (ht : hasHandler e.eventType = false) :
    eventTransform invoke now e = fun x =>
      { x with processed := true, processedAt := some now,
               lastError := some ("No handler registered for event type: " ++ e.eventType) } := by
  simp [eventTransform, ht]

lemma eventTransform_success (invoke : Invoke) (now : Nat) (e : OutboxEvent)
    (d : Option AuditLogData) (ht : hasHandler e.eventType = true)
    (hi : invoke e.eventType e.payload = HandlerOutcome.success d) :
    eventTransform invoke now e = fun x =>
      { x with processed := true, processedAt := some now,
               attempts := e.attempts + 1 } := by
  simp [eventTransform, ht, hi]

lemma eventTransform_failure_retry (invoke : Invoke) (now : Nat) (e : OutboxEvent)
    (m : String) (ht : hasHandler e.eventType = true)
    (hi : invoke e.eventType e.payload = HandlerOutcome.failure m)
    (hr : e.attempts + 1 < MAX_RETRIES) :
    eventTransform invoke now e = fun x =>
      { x with attempts := e.attempts + 1, lastError := some m } := by
  simp [eventTransform, ht, hi, Nat.not_le.mpr hr]

lemma eventTransform_failure_final (invoke : Invoke) (now : Nat) (e : OutboxEvent)
    (m : String) (ht : hasHandler e.eventType = true)
    (hi : invoke e.eventType e.payload = HandlerOutcome.failure m)
    (hr : MAX_RETRIES ≤ e.attempts + 1) :
    eventTransform invoke now e = fun x =>
      { x with processed := true, processedAt := some now,
               attempts := e.attempts + 1,
               lastError := some ("Max retries (" ++ toString MAX_RETRIES
                 ++ ") exceeded: " ++ m) } := by
  simp [eventTransform, ht, hi, hr]

lemma auditOf_no_handler (invoke : Invoke) (now : Nat) (e : OutboxEvent)
    (ht : hasHandler e.eventType = false) : auditOf invoke now e = none := by
  simp [auditOf, ht]

lemma auditOf_success (invoke : Invoke) (now : Nat) (e : OutboxEvent)
    (d : Option AuditLogData) (ht : hasHandler e.eventType = true)
    (hi : invoke e.eventType e.payload = HandlerOutcome.success d) :
    auditOf invoke now e = d.map fun a => mkAuditLog a now := by
  cases d <;> simp [auditOf, ht, hi]

lemma auditOf_failure (invoke : Invoke) (now : Nat) (e : OutboxEvent)
    (m : String) (hi : invoke e.eventType e.payload = HandlerOutcome.failure m) :
    auditOf invoke now e = none := by
  cases ht : hasHandler e.eventType <;> simp [auditOf, ht, hi]

lemma cycle_no_handler (invoke : Invoke) (now : Nat) (db : Db) (e : OutboxEvent)
    (hdb : db.events = [e]) (hp : e.processed = false)
    (ha : e.attempts < MAX_RETRIES) (ht : hasHandler e.eventType = false) :
    pollAndProcess invoke now db
      = { db with events :=
            [{ e with
                 processed := true, processedAt := some now,
                 lastError := some ("No handler registered for event type: "
                   ++ e.eventType) }] } := by
  rw [pollAndProcess_single invoke now db e hdb hp ha,
      eventTransform_no_handler _ _ _ ht, auditOf_no_handler _ _ _ ht]
  apply Db_ext <;> simp

lemma cycle_success (invoke : Invoke) (now : Nat) (db : Db) (e : OutboxEvent)
    (d : Option AuditLogData) (hdb : db.events = [e]) (hp : e.processed = false)
    (ha : e.attempts < MAX_RETRIES) (ht : hasHandler e.eventType = true)
    (hi : invoke e.eventType e.payload = HandlerOutcome.success d) :
    pollAndProcess invoke now db
      = { db with
          events := [{ e with
                       processed := true, processedAt := some now,
                       attempts := e.attempts + 1 }],
          auditLogs := db.auditLogs
            ++ (d.map (fun a => mkAuditLog a now)).toList } := by
  rw [pollAndProcess_single invoke now db e hdb hp ha,
      eventTransform_success _ _ _ _ ht hi, auditOf_success _ _ _ _ ht hi]

lemma cycle_failure_retry (invoke : Invoke) (now : Nat) (db : Db) (e : OutboxEvent)
    (m : String) (hdb : db.events = [e]) (hp : e.processed = false)
    (hr : e.attempts + 1 < MAX_RETRIES) (ht : hasHandler e.eventType = true)
    (hi : invoke e.eventType e.payload = HandlerOutcome.failure m) :
    pollAndProcess invoke now db
      = { db with events :=
            [{ e with
                 attempts := e.attempts + 1,
                 lastError := some m }] } := by
  rw [pollAndProcess_single invoke now db e hdb hp (Nat.lt_of_succ_lt hr),
      eventTransform_failure_retry _ _ _ _ ht hi hr, auditOf_failure _ _ _ _ hi]
  apply Db_ext <;> simp

lemma cycle_failure_final (invoke : Invoke) (now : Nat) (db : Db) (e : OutboxEvent)
    (m : String) (hdb : db.events = [e]) (hp : e.processed = false)
    (ha : e.attempts < MAX_RETRIES) (hr : MAX_RETRIES ≤ e.attempts + 1)
    (ht : hasHandler e.eventType = true)
    (hi : invoke e.eventType e.payload = HandlerOutcome.failure m) :
    pollAndProcess invoke now db
      = { db with events :=
            [{ e with
                 processed := true, processedAt := some now,
                 attempts := e.attempts + 1,
                 lastError := some ("Max retries (" ++ toString MAX_RETRIES
                   ++ ") exceeded: " ++ m) }] } := by
  rw [pollAndProcess_single invoke now db e hdb hp ha,
      eventTransform_failure_final _ _ _ _ ht hi hr, auditOf_failure _ _ _ _ hi]
  apply Db_ext <;> simp

lemma run_no_handler (db : Db) (e : OutboxEvent) (oracle : Nat → Invoke)
    (clock : Nat → Nat) (hdb : db.events = [e]) (hp : e.processed = false)
    (ha : e.attempts < MAX_RETRIES) (ht : hasHandler e.eventType = false)
    (n : Nat) (hn : 1 ≤ n) :
    runCycles oracle clock n db
      = { db with events :=
            [{ e with
                 processed := true, processedAt := some (clock 0),
                 lastError := some ("No handler registered for event type: "
                   ++ e.eventType) }] } := by
  apply runCycles_stable oracle clock db _ 1 _ _ n hn
  · show pollAndProcess (oracle 0) (clock 0) (runCycles oracle clock 0 db) = _
    exact cycle_no_handler (oracle 0) (clock 0) db e hdb hp ha ht
  · intro x hx
    simp at hx
    rw [hx]

/-- C3: an event whose `eventType` has no registered handler is terminally
abandoned by a single pass: `processed=true`, `processedAt` set, `lastError`
is the "No handler registered for event type: <type>" message; no `AuditLog`
row is ever produced for it and every later poll cycle leaves the state
unchanged (it is never retried). -/
theorem C3_no_handler_terminal_abandonment
    (db : Db) (e : OutboxEvent) (oracle : Nat → Invoke) (clock : Nat → Nat)
    (hdb : db.events = [e]) (hp : e.processed = false)
    (ha : e.attempts < MAX_RETRIES) (ht : hasHandler e.eventType = false)
    (n : Nat) (hn : 1 ≤ n) :
    findRow (runCycles oracle clock n db) e.id
      = some { e with
               processed := true, processedAt := some (clock 0),
               lastError := some ("No handler registered for event type: "
                 ++ e.eventType) } ∧
    (runCycles oracle clock n db).auditLogs = db.auditLogs ∧
    runCycles oracle clock n db = runCycles oracle clock 1 db := by
  have h1 := run_no_handler db e oracle clock hdb hp ha ht
  refine ⟨?_, ?_, ?_⟩
  · rw [h1 n hn]
    unfold findRow
    simp
  · rw [h1 n hn]
  · rw [h1 n hn, h1 1 le_rfl]

/-- C3 witness at a concrete input. -/
theorem C3_no_handler_terminal_abandonment_witness :
    let e : OutboxEvent :=
      { id := "evt-1", aggregateId := "agg-1", eventType := "unknown.event",
        payload := "x=1", processed := false, processedAt := none,
        attempts := 0, lastError := none, createdAt := 5 }
    let db : Db :=
      { users := [], events := [e], auditLogs := [], digestBatches := [],
        nextId := 2 }
    findRow (runCycles (fun _ _ _ => HandlerOutcome.success none) (fun i => i + 100) 3 db) "evt-1"
      = some { e with
               processed := true, processedAt := some 100,
               lastError := some "No handler registered for event type: unknown.event" } ∧
    (runCycles (fun _ _ _ => HandlerOutcome.success none) (fun i => i + 100) 3 db).auditLogs = [] ∧
    runCycles (fun _ _ _ => HandlerOutcome.success none) (fun i => i + 100) 3 db
      = runCycles (fun _ _ _ => HandlerOutcome.success none) (fun i => i + 100) 1 db := by
  intro e db
  have h := C3_no_handler_terminal_abandonment db e
    (fun _ _ _ => HandlerOutcome.success none) (fun i => i + 100) rfl rfl
    (by decide) (by decide) 3 (by decide)
  refine ⟨?_, ?_, h.2.2⟩
  · rw [show ("evt-1" : String) = e.id from rfl]
    rw [h.1]
    rfl
  · exact h.2.1

/-- C9: the terminal no-handler update is not counted as a processing
attempt: the `attempts` field is unchanged by the abandonment pass (so a
freshly enqueued event of an unregistered type, `attempts = 0`, ends in
`processed=true` with `attempts` still `0`). -/
theorem C9_no_handler_leaves_attempts_unchanged
    (db : Db) (e : OutboxEvent) (oracle : Nat → Invoke) (clock : Nat → Nat)
    (hdb : db.events = [e]) (hp : e.processed = false)
    (ha : e.attempts < MAX_RETRIES) (ht : hasHandler e.eventType = false)
    (n : Nat) (hn : 1 ≤ n) :
    (findRow (runCycles oracle clock n db) e.id).map OutboxEvent.attempts
      = some e.attempts ∧
    (findRow (runCycles oracle clock n db) e.id).map OutboxEvent.processed
      = some true := by
  rw [run_no_handler db e oracle clock hdb hp ha ht n hn]
  unfold findRow
  simp

/-- C9 witness at a concrete input: a fresh event (`attempts = 0`) of an
unregistered type ends processed with `attempts = 0`. -/
theorem C9_no_handler_leaves_attempts_unchanged_witness :
    let e : OutboxEvent :=
      { id := "evt-7", aggregateId := "agg-7", eventType := "mystery.event",
        payload := "y=2", processed := false, processedAt := none,
        attempts := 0, lastError := none, createdAt := 0 }
    let db : Db :=
      { users := [], events := [e], auditLogs := [], digestBatches := [],
        nextId := 8 }
    (findRow (runCycles (fun _ _ _ => HandlerOutcome.success none) (fun _ => 0) 1 db) "evt-7").map OutboxEvent.attempts
      = some 0 ∧
    (findRow (runCycles (fun _ _ _ => HandlerOutcome.success none) (fun _ => 0) 1 db) "evt-7").map OutboxEvent.processed
      = some true := by
  intro e db
  have h := C9_no_handler_leaves_attempts_unchanged db e
    (fun _ _ _ => HandlerOutcome.success none) (fun _ => 0) rfl rfl
    (by decide) (by decide) 1 le_rfl
  exact h

lemma findRow_single (db : Db) (x : OutboxEvent) (i : String)
    (hdb : db.events = [x]) (hid : x.id = i) : findRow db i = some x := by
  unfold findRow
  rw [hdb]
  simp [hid]

lemma OutboxEvent_ext (a b : OutboxEvent) (h1 : a.id = b.id)
    (h2 : a.aggregateId = b.aggregateId) (h3 : a.eventType = b.eventType)
    (h4 : a.payload = b.payload) (h5 : a.processed = b.processed)
    (h6 : a.processedAt = b.processedAt) (h7 : a.attempts = b.attempts)
    (h8 : a.lastError = b.lastError) (h9 : a.createdAt = b.createdAt) :
    a = b := by
  cases a
  cases b
  simp_all

/-- C1: when a handler is registered and the invocation at cycle `k` succeeds
after `k` failed attempts (necessarily `k < MAX_RETRIES` for success to be
reachable), the success commit sets `processed=true`, `processedAt`, and
`attempts` to the fetched `attempts+1` (= `k+1`), and appends exactly one
`AuditLog` row exactly when the handler returned non-null data — all in the
same state transition; every later cycle leaves the state unchanged, so the
eventually-successful event has exactly one audit record regardless of how
many failed attempts preceded the success. -/
theorem C1_success_commit_exactly_once_audit
    (db : Db) (e : OutboxEvent) (oracle : Nat → Invoke) (clock : Nat → Nat)
    (msgs : Nat → String) (d : Option AuditLogData) (k : Nat)
    (hk : k < MAX_RETRIES)
    (horacle : ∀ i ty pl, oracle i ty pl
      = if i < k then HandlerOutcome.failure (msgs i)
        else HandlerOutcome.success d)
    (hdb : db.events = [e]) (hp : e.processed = false) (ha : e.attempts = 0)
    (ht : hasHandler e.eventType = true) (n : Nat) (hn : k + 1 ≤ n) :
    findRow (runCycles oracle clock n db) e.id
      = some { e with
               processed := true, processedAt := some (clock k),
               attempts := k + 1,
               lastError := if k = 0 then e.lastError
                 else some (msgs (k - 1)) } ∧
    (runCycles oracle clock n db).auditLogs
      = db.auditLogs ++ (d.map (fun a => mkAuditLog a (clock k))).toList := by
  have hanat : e.attempts < MAX_RETRIES := by
    rw [ha]
    decide
  have hk3 : k = 0 ∨ k = 1 ∨ k = 2 := by
    have : k < 3 := hk
    omega
  rcases hk3 with rfl | rfl | rfl
  · -- immediate success
    have hi0 : oracle 0 e.eventType e.payload = HandlerOutcome.success d := by
      rw [horacle]
      simp
    have h1 : runCycles oracle clock 1 db
        = { db with
            events := [{ e with
                         processed := true, processedAt := some (clock 0),
                         attempts := e.attempts + 1 }],
            auditLogs := db.auditLogs
              ++ (d.map (fun a => mkAuditLog a (clock 0))).toList } :=
      cycle_success (oracle 0) (clock 0) db e d hdb hp hanat ht hi0
    have hstable := runCycles_stable oracle clock db _ 1 h1
      (by
        intro x hx
        simp at hx
        rw [hx]) n hn
    rw [hstable]
    constructor
    · unfold findRow
      simp [ha]
    · rfl
  · -- one failure, then success
    have hi0 : oracle 0 e.eventType e.payload
        = HandlerOutcome.failure (msgs 0) := by
      rw [horacle]
      simp
    have hr0 : e.attempts + 1 < MAX_RETRIES := by
      rw [ha]
      decide
    have step1 : pollAndProcess (oracle 0) (clock 0) db
        = { db with
            events := [{ e with
                         attempts := e.attempts + 1,
                         lastError := some (msgs 0) }] } :=
      cycle_failure_retry (oracle 0) (clock 0) db e (msgs 0) hdb hp hr0 ht hi0
    set e1 : OutboxEvent :=
      { e with attempts := e.attempts + 1, lastError := some (msgs 0) } with he1
    set db1 : Db := { db with events := [e1] } with hdb1def
    have hi1 : oracle 1 e1.eventType e1.payload
        = HandlerOutcome.success d := by
      rw [horacle]
      simp
    have ha1 : e1.attempts < MAX_RETRIES := by
      show e.attempts + 1 < MAX_RETRIES
      rw [ha]
      decide
    have step2 : pollAndProcess (oracle 1) (clock 1) db1
        = { db1 with
            events := [{ e1 with
                         processed := true, processedAt := some (clock 1),
                         attempts := e1.attempts + 1 }],
            auditLogs := db1.auditLogs
              ++ (d.map (fun a => mkAuditLog a (clock 1))).toList } :=
      cycle_success (oracle 1) (clock 1) db1 e1 d rfl hp ha1 ht hi1
    have h2 : runCycles oracle clock 2 db
        = { db1 with
            events := [{ e1 with
                         processed := true, processedAt := some (clock 1),
                         attempts := e1.attempts + 1 }],
            auditLogs := db1.auditLogs
              ++ (d.map (fun a => mkAuditLog a (clock 1))).toList } := by
      show pollAndProcess (oracle 1) (clock 1) (runCycles oracle clock 1 db) = _
      rw [show runCycles oracle clock 1 db = db1 from step1]
      exact step2
    have hstable := runCycles_stable oracle clock db _ 2 h2
      (by
        intro x hx
        simp at hx
        rw [hx]) n hn
    rw [hstable]
    constructor
    · unfold findRow
      simp [he1, ha]
    · rfl
  · -- two failures, then success
    have hi0 : oracle 0 e.eventType e.payload
        = HandlerOutcome.failure (msgs 0) := by
      rw [horacle]
      simp
    have hr0 : e.attempts + 1 < MAX_RETRIES := by
      rw [ha]
      decide
    have step1 : pollAndProcess (oracle 0) (clock 0) db
        = { db with
            events := [{ e with
                         attempts := e.attempts + 1,
                         lastError := some (msgs 0) }] } :=
      cycle_failure_retry (oracle 0) (clock 0) db e (msgs 0) hdb hp hr0 ht hi0
    set e1 : OutboxEvent :=
      { e with attempts := e.attempts + 1, lastError := some (msgs 0) } with he1
    set db1 : Db := { db with events := [e1] } with hdb1def
    have hi1 : oracle 1 e1.eventType e1.payload
        = HandlerOutcome.failure (msgs 1) := by
      rw [horacle]
      simp
    have hr1 : e1.attempts + 1 < MAX_RETRIES := by
      show e.attempts + 1 + 1 < MAX_RETRIES
      rw [ha]
      decide
    have step2 : pollAndProcess (oracle 1) (clock 1) db1
        = { db1 with
            events := [{ e1 with
                         attempts := e1.attempts + 1,
                         lastError := some (msgs 1) }] } :=
      cycle_failure_retry (oracle 1) (clock 1) db1 e1 (msgs 1) rfl hp hr1 ht hi1
    set e2 : OutboxEvent :=
      { e1 with attempts := e1.attempts + 1, lastError := some (msgs 1) } with he2
    set db2 : Db := { db1 with events := [e2] } with hdb2def
    have hi2 : oracle 2 e2.eventType e2.payload
        = HandlerOutcome.success d := by
      rw [horacle]
      simp
    have ha2 : e2.attempts < MAX_RETRIES := by
      show e.attempts + 1 + 1 < MAX_RETRIES
      rw [ha]
      decide
    have step3 : pollAndProcess (oracle 2) (clock 2) db2
        = { db2 with
            events := [{ e2 with
                         processed := true, processedAt := some (clock 2),
                         attempts := e2.attempts + 1 }],
            auditLogs := db2.auditLogs
              ++ (d.map (fun a => mkAuditLog a (clock 2))).toList } :=
      cycle_success (oracle 2) (clock 2) db2 e2 d rfl hp ha2 ht hi2
    have h3 : runCycles oracle clock 3 db
        = { db2 with
            events := [{ e2 with
                         processed := true, processedAt := some (clock 2),
                         attempts := e2.attempts + 1 }],
            auditLogs := db2.auditLogs
              ++ (d.map (fun a => mkAuditLog a (clock 2))).toList } := by
      show pollAndProcess (oracle 2) (clock 2) (runCycles oracle clock 2 db) = _
      rw [show runCycles oracle clock 2 db = db2 from by
        show pollAndProcess (oracle 1) (clock 1) (runCycles oracle clock 1 db) = db2
        rw [show runCycles oracle clock 1 db = db1 from step1]
        exact step2]
      exact step3
    have hstable := runCycles_stable oracle clock db _ 3 h3
      (by
        intro x hx
        simp at hx
        rw [hx]) n hn
    rw [hstable]
    constructor
    · unfold findRow
      simp [he2, he1, ha]
    · rfl

/-- C1 witness at a concrete input: one failed attempt, then success with
audit data, run for 4 cycles — exactly one audit row results. -/
theorem C1_success_commit_exactly_once_audit_witness :
    let e : OutboxEvent :=
      { id := "evt-9", aggregateId := "user-9", eventType := "user.created",
        payload := "userId=9", processed := false, processedAt := none,
        attempts := 0, lastError := none, createdAt := 3 }
    let db : Db :=
      { users := [], events := [e], auditLogs := [], digestBatches := [],
        nextId := 1 }
    let d : AuditLogData :=
      { actor := "system", action := "welcome_email_sent",
        targetId := some "user-9", metadata := some "email=a" }
    let oracle : Nat → Invoke := fun i _ _ =>
      if i < 1 then HandlerOutcome.failure "boom" else HandlerOutcome.success (some d)
    findRow (runCycles oracle (fun i => i) 4 db) "evt-9"
      = some { e with
               processed := true, processedAt := some 1, attempts := 2,
               lastError := some "boom" } ∧
    (runCycles oracle (fun i => i) 4 db).auditLogs = [mkAuditLog d 1] := by
  intro e db d oracle
  have h := C1_success_commit_exactly_once_audit db e oracle (fun i => i)
    (fun _ => "boom") (some d) 1 (by decide)
    (fun i ty pl => rfl) rfl rfl rfl (by decide) 4 (by decide)
  refine ⟨?_, ?_⟩
  · rw [show ("evt-9" : String) = e.id from rfl, h.1]
    rfl
  · rw [h.2]
    rfl

/-- C2: with a registered handler whose invocation fails at every cycle, the
event accumulates `attempts` one per cycle and, once the new count reaches
`MAX_RETRIES` (= 3), is terminally marked `processed=true` with the
"Max retries (3) exceeded: <message>" error; for every later cycle the state
is unchanged, so `attempts` ends at exactly `MAX_RETRIES` and never more,
and no audit row is ever written. -/
theorem C2_always_failing_handler_retry_bound
    (db : Db) (e : OutboxEvent) (oracle : Nat → Invoke) (clock : Nat → Nat)
    (msgs : Nat → String)
    (horacle : ∀ i ty pl, oracle i ty pl = HandlerOutcome.failure (msgs i))
    (hdb : db.events = [e]) (hp : e.processed = false) (ha : e.attempts = 0)
    (ht : hasHandler e.eventType = true) (n : Nat) (hn : MAX_RETRIES ≤ n) :
    findRow (runCycles oracle clock n db) e.id
      = some { e with
               processed := true, processedAt := some (clock 2),
               attempts := MAX_RETRIES,
               lastError := some ("Max retries (3) exceeded: " ++ msgs 2) } ∧
    (runCycles oracle clock n db).auditLogs = db.auditLogs := by
  have hr0 : e.attempts + 1 < MAX_RETRIES := by
    rw [ha]
    decide
  have step1 : pollAndProcess (oracle 0) (clock 0) db
      = { db with
          events := [{ e with
                       attempts := e.attempts + 1,
                       lastError := some (msgs 0) }] } :=
    cycle_failure_retry (oracle 0) (clock 0) db e (msgs 0) hdb hp hr0 ht
      (horacle 0 _ _)
  set e1 : OutboxEvent :=
    { e with attempts := e.attempts + 1, lastError := some (msgs 0) } with he1
  set db1 : Db := { db with events := [e1] } with hdb1def
  have hr1 : e1.attempts + 1 < MAX_RETRIES := by
    show e.attempts + 1 + 1 < MAX_RETRIES
    rw [ha]
    decide
  have step2 : pollAndProcess (oracle 1) (clock 1) db1
      = { db1 with
          events := [{ e1 with
                       attempts := e1.attempts + 1,
                       lastError := some (msgs 1) }] } :=
    cycle_failure_retry (oracle 1) (clock 1) db1 e1 (msgs 1) rfl hp hr1 ht
      (horacle 1 _ _)
  set e2 : OutboxEvent :=
    { e1 with attempts := e1.attempts + 1, lastError := some (msgs 1) } with he2
  set db2 : Db := { db1 with events := [e2] } with hdb2def
  have ha2 : e2.attempts < MAX_RETRIES := by
    show e.attempts + 1 + 1 < MAX_RETRIES
    rw [ha]
    decide
  have hr2 : MAX_RETRIES ≤ e2.attempts + 1 := by
    show MAX_RETRIES ≤ e.attempts + 1 + 1 + 1
    rw [ha]
    decide
  have step3 : pollAndProcess (oracle 2) (clock 2) db2
      = { db2 with
          events := [{ e2 with
                       processed := true, processedAt := some (clock 2),
                       attempts := e2.attempts + 1,
                       lastError := some ("Max retries (" ++ toString MAX_RETRIES
                         ++ ") exceeded: " ++ msgs 2) }] } :=
    cycle_failure_final (oracle 2) (clock 2) db2 e2 (msgs 2) rfl hp ha2 hr2 ht
      (horacle 2 _ _)
  have h3 : runCycles oracle clock 3 db
      = { db2 with
          events := [{ e2 with
                       processed := true, processedAt := some (clock 2),
                       attempts := e2.attempts + 1,
                       lastError := some ("Max retries (" ++ toString MAX_RETRIES
                         ++ ") exceeded: " ++ msgs 2) }] } := by
    show pollAndProcess (oracle 2) (clock 2) (runCycles oracle clock 2 db) = _
    rw [show runCycles oracle clock 2 db = db2 from by
      show pollAndProcess (oracle 1) (clock 1) (runCycles oracle clock 1 db) = db2
      rw [show runCycles oracle clock 1 db = db1 from step1]
      exact step2]
    exact step3
  have hstable := runCycles_stable oracle clock db _ 3 h3
    (by
      intro x hx
      simp at hx
      rw [hx]) n hn
  rw [hstable]
  constructor
  · unfold findRow
    have hstr : ("Max retries (" ++ toString MAX_RETRIES ++ ") exceeded: "
        ++ msgs 2) = "Max retries (3) exceeded: " ++ msgs 2 := rfl
    simp [he2, he1, ha, hstr, MAX_RETRIES]
    rfl
  · rfl

/-- C2 witness at a concrete input: an always-failing invocation, run for 5
cycles — the event ends `processed=true`, `attempts = 3`, with the
max-retries error, and no audit row. -/
theorem C2_always_failing_handler_retry_bound_witness :
    let e : OutboxEvent :=
      { id := "evt-5", aggregateId := "user-5", eventType := "user.created",
        payload := "bad json", processed := false, processedAt := none,
        attempts := 0, lastError := none, createdAt := 7 }
    let db : Db :=
      { users := [], events := [e], auditLogs := [], digestBatches := [],
        nextId := 1 }
    findRow (runCycles (fun _ _ _ => HandlerOutcome.failure "parse error")
        (fun i => i + 50) 5 db) "evt-5"
      = some { e with
               processed := true, processedAt := some 52, attempts := 3,
               lastError := some "Max retries (3) exceeded: parse error" } ∧
    (runCycles (fun _ _ _ => HandlerOutcome.failure "parse error")
        (fun i => i + 50) 5 db).auditLogs = [] := by
  intro e db
  have h := C2_always_failing_handler_retry_bound db e
    (fun _ _ _ => HandlerOutcome.failure "parse error") (fun i => i + 50)
    (fun _ => "parse error") (fun i ty pl => rfl) rfl rfl rfl (by decide) 5
    (by decide)
  refine ⟨?_, ?_⟩
  · rw [show ("evt-5" : String) = e.id from rfl, h.1]
    rfl
  · exact h.2

lemma eventTransform_processedAt_inv (invoke : Invoke) (now : Nat)
    (ev x : OutboxEvent) (h : x.processedAt.isSome = x.processed) :
    (eventTransform invoke now ev x).processedAt.isSome
      = (eventTransform invoke now ev x).processed := by
  unfold eventTransform
  cases ht : hasHandler ev.eventType
  · simp
  · cases hi : invoke ev.eventType ev.payload with
    | success d => simp
    | failure m =>
      by_cases hr : MAX_RETRIES ≤ ev.attempts + 1 <;> simp [hr, h]

lemma foldl_processEvent_processedAt_inv (invoke : Invoke) (now : Nat) :
    ∀ (l : List OutboxEvent) (db : Db),
      (∀ x ∈ db.events, x.processedAt.isSome = x.processed) →
      ∀ x ∈ (l.foldl (processEvent invoke now) db).events,
        x.processedAt.isSome = x.processed
  | [], _, h, x, hx => h x hx
  | a :: t, db, h, x, hx => by
    rw [List.foldl_cons] at hx
    refine foldl_processEvent_processedAt_inv invoke now t
      (processEvent invoke now db a) ?_ x hx
    intro y hy
    rw [processEvent_events] at hy
    rcases List.mem_map.mp hy with ⟨z, hz, rfl⟩
    by_cases hza : z.id = a.id
    · rw [if_pos hza]
      exact eventTransform_processedAt_inv invoke now a z (h z hz)
    · rw [if_neg hza]
      exact h z hz

lemma nodup_length_le (l l2 : List String) (hn : l.Nodup) (hsub : l ⊆ l2) :
    l.length ≤ l2.length :=
  calc l.length = l.toFinset.card := (List.toFinset_card_of_nodup hn).symm
    _ ≤ l2.toFinset.card := Finset.card_le_card fun _ ha =>
        List.mem_toFinset.mpr (hsub (List.mem_toFinset.mp ha))
    _ ≤ l2.length := List.toFinset_card_le l2

/-- C7: a failure inside one event's processing never aborts the batch: for
every fetched event of a poll cycle — whatever the invocation outcomes for
it and for the other fetched events, including failures of events processed
earlier in the same batch — the cycle's final state contains that event's
row with its own outcome (`eventTransform`) applied. -/
theorem C7_failure_never_aborts_batch
    (invoke : Invoke) (now : Nat) (db : Db)
    (hids : (db.events.map fun e => e.id).Nodup) :
    ∀ e ∈ fetchBatch db,
      findRow (pollAndProcess invoke now db) e.id
        = some (eventTransform invoke now e e) := by
  intro e he
  have hpair := fetchBatch_ids_nodup db hids
  have hmem : e ∈ db.events := (fetchBatch_mem db e he).1
  unfold pollAndProcess
  rw [foldl_processEvent_findRow_mem invoke now (fetchBatch db) db e hpair he,
      findRow_of_mem db e hids hmem]
  rfl

/-- C7 witness: two pending events of the same registered type; the first
one's invocation fails, yet the second is still processed in the same cycle. -/
theorem C7_failure_never_aborts_batch_witness :
    let e1 : OutboxEvent :=
      { id := "a", aggregateId := "u1", eventType := "user.created",
        payload := "p1", processed := false, processedAt := none,
        attempts := 0, lastError := none, createdAt := 0 }
    let e2 : OutboxEvent :=
      { id := "b", aggregateId := "u2", eventType := "user.created",
        payload := "p2", processed := false, processedAt := none,
        attempts := 0, lastError := none, createdAt := 1 }
    let db : Db :=
      { users := [], events := [e1, e2], auditLogs := [], digestBatches := [],
        nextId := 3 }
    let invoke : Invoke := fun _ pl =>
      if pl = "p1" then HandlerOutcome.failure "boom"
      else HandlerOutcome.success none
    findRow (pollAndProcess invoke 9 db) "b"
      = some { e2 with
               processed := true, processedAt := some 9,
               attempts := 1 } ∧
    findRow (pollAndProcess invoke 9 db) "a"
      = some { e1 with
               attempts := 1, lastError := some "boom" } := by
  intro e1 e2 db invoke
  constructor
  · have h := C7_failure_never_aborts_batch invoke 9 db (by decide) e2
      (by decide)
    rw [show ("b" : String) = e2.id from rfl, h]
    rfl
  · have h := C7_failure_never_aborts_batch invoke 9 db (by decide) e1
      (by decide)
    rw [show ("a" : String) = e1.id from rfl, h]
    rfl

/-- C6: `processed=true` is an immutable terminal state: such a row is never
selected by the fetch of a poll cycle, its row (in particular `attempts`) is
left exactly as it was by a whole poll cycle, the invariant "`processedAt`
is set iff `processed`" is preserved by a poll cycle, and rows created by
`createOutboxEvent` start with `processed=false`, `processedAt=null`,
`attempts=0` (establishing the invariant). -/
theorem C6_processed_is_immutable_terminal_state
    (invoke : Invoke) (now : Nat) (db : Db) (p : CreateOutboxEventParams)
    (hids : (db.events.map fun e => e.id).Nodup)
    (hinv : ∀ x ∈ db.events, x.processedAt.isSome = x.processed) :
    (∀ e ∈ db.events, e.processed = true → e ∉ fetchBatch db) ∧
    (∀ e ∈ db.events, e.processed = true →
      findRow (pollAndProcess invoke now db) e.id = some e) ∧
    (∀ x ∈ (pollAndProcess invoke now db).events,
      x.processedAt.isSome = x.processed) ∧
    ((createOutboxEvent p now db).1.processed = false ∧
      (createOutboxEvent p now db).1.processedAt = none ∧
      (createOutboxEvent p now db).1.attempts = 0) := by
  refine ⟨?_, ?_, ?_, rfl, rfl, rfl⟩
  · intro e he hproc hbatch
    have := (fetchBatch_mem db e hbatch).2.1
    rw [hproc] at this
    exact Bool.true_eq_false.mp this
  · intro e he hproc
    have hne : ∀ x ∈ fetchBatch db, x.id ≠ e.id := by
      intro x hx hxe
      have hxmem := fetchBatch_mem db x hx
      have hxeq : x = e := List.inj_on_of_nodup_map hids hxmem.1 he hxe
      rw [hxeq] at hxmem
      rw [hproc] at hxmem
      exact Bool.true_eq_false.mp hxmem.2.1
    unfold pollAndProcess
    rw [foldl_processEvent_findRow_ne invoke now (fetchBatch db) db e.id hne,
        findRow_of_mem db e hids he]
  · exact foldl_processEvent_processedAt_inv invoke now (fetchBatch db) db hinv

/-- C6 witness: a manually processed row coexisting with a pending one; the
poll cycle leaves the processed row untouched and keeps the invariant. -/
theorem C6_processed_is_immutable_terminal_state_witness :
    let edone : OutboxEvent :=
      { id := "done", aggregateId := "u1", eventType := "user.created",
        payload := "p", processed := true, processedAt := some 1,
        attempts := 1, lastError := none, createdAt := 0 }
    let epend : OutboxEvent :=
      { id := "pend", aggregateId := "u2", eventType := "user.created",
        payload := "q", processed := false, processedAt := none,
        attempts := 0, lastError := none, createdAt := 1 }
    let db : Db :=
      { users := [], events := [edone, epend], auditLogs := [],
        digestBatches := [], nextId := 3 }
    let invoke : Invoke := fun _ _ => HandlerOutcome.success none
    edone ∉ fetchBatch db ∧
    findRow (pollAndProcess invoke 4 db) "done" = some edone ∧
    (∀ x ∈ (pollAndProcess invoke 4 db).events,
      x.processedAt.isSome = x.processed) := by
  intro edone epend db invoke
  have h := C6_processed_is_immutable_terminal_state invoke 4 db
    { aggregateId := "u9", eventType := "user.created", payload := "r" }
    (by decide) (by decide)
  refine ⟨h.1 edone (by decide) rfl, ?_, h.2.2.1⟩
  · rw [show ("done" : String) = edone.id from rfl]
    exact h.2.1 edone (by decide) rfl

/-- C5 counterexample: the unconditional FIFO consequence of the claim is
false under retries.  Two events of the same type, `e1` created before `e2`;
`e1`'s first invocation fails (transient) while `e2` succeeds, and `e1`
succeeds on the next cycle: both eventually succeed, yet `e2`'s side effect
(audit row, written at cycle 0) is observably ordered before `e1`'s (written
at cycle 1). -/
theorem C5_fifo_retry_counterexample :
    let e1 : OutboxEvent :=
      { id := "e1", aggregateId := "u1", eventType := "user.created",
        payload := "p1", processed := false, processedAt := none,
        attempts := 0, lastError := none, createdAt := 0 }
    let e2 : OutboxEvent :=
      { id := "e2", aggregateId := "u2", eventType := "user.created",
        payload := "p2", processed := false, processedAt := none,
        attempts := 0, lastError := none, createdAt := 1 }
    let d1 : AuditLogData :=
      { actor := "system", action := "welcome_email_sent",
        targetId := some "u1", metadata := none }
    let d2 : AuditLogData :=
      { actor := "system", action := "welcome_email_sent",
        targetId := some "u2", metadata := none }
    let oracle : Nat → Invoke := fun i _ pl =>
      if i = 0 ∧ pl = "p1" then HandlerOutcome.failure "transient"
      else if pl = "p1" then HandlerOutcome.success (some d1)
      else HandlerOutcome.success (some d2)
    let db : Db :=
      { users := [], events := [e1, e2], auditLogs := [], digestBatches := [],
        nextId := 0 }
    e1.createdAt < e2.createdAt ∧
    (runCycles oracle (fun i => 100 + i) 2 db).auditLogs
      = [mkAuditLog d2 100, mkAuditLog d1 101] ∧
    (findRow (runCycles oracle (fun i => 100 + i) 2 db) "e1").map
      OutboxEvent.processed = some true ∧
    (findRow (runCycles oracle (fun i => 100 + i) 2 db) "e2").map
      OutboxEvent.processed = some true := by
  decide

/-- C5 (amended): every poll cycle fetches at most `BATCH_SIZE` (10) events,
only pending ones (`processed=false` and `attempts < MAX_RETRIES`), in
`createdAt` ascending order; the cycle's side effects (audit rows) are
appended in exactly that fetch order, rows outside the fetched batch are
untouched, and hence at most `BATCH_SIZE` rows change in one cycle (so with
15 pending events at most 10 are processed).  The FIFO consequence holds in
this per-cycle form; the unconditional cross-cycle form fails under retries
(see the counterexample). -/
theorem C5_batch_bound_order_and_frame
    (invoke : Invoke) (now : Nat) (db : Db)
    (hids : (db.events.map fun e => e.id).Nodup) :
    (fetchBatch db).length ≤ BATCH_SIZE ∧
    (∀ e ∈ fetchBatch db,
      e ∈ db.events ∧ e.processed = false ∧ e.attempts < MAX_RETRIES) ∧
    (fetchBatch db).Pairwise (fun a b => a.createdAt ≤ b.createdAt) ∧
    (pollAndProcess invoke now db).auditLogs
      = db.auditLogs ++ (fetchBatch db).filterMap (auditOf invoke now) ∧
    (∀ x ∈ db.events, x.id ∉ (fetchBatch db).map (fun e => e.id) →
      findRow (pollAndProcess invoke now db) x.id = some x) ∧
    (db.events.filter fun x =>
      !decide (findRow (pollAndProcess invoke now db) x.id = some x)).length
      ≤ BATCH_SIZE := by
  have hframe : ∀ x ∈ db.events, x.id ∉ (fetchBatch db).map (fun e => e.id) →
      findRow (pollAndProcess invoke now db) x.id = some x := by
    intro x hx hnot
    have hne : ∀ e ∈ fetchBatch db, e.id ≠ x.id := by
      intro e he heq
      exact hnot (List.mem_map.mpr ⟨e, he, heq⟩)
    unfold pollAndProcess
    rw [foldl_processEvent_findRow_ne invoke now (fetchBatch db) db x.id hne,
        findRow_of_mem db x hids hx]
  refine ⟨fetchBatch_length_le db, fetchBatch_mem db, fetchBatch_sorted db,
    ?_, hframe, ?_⟩
  · unfold pollAndProcess
    exact foldl_processEvent_auditLogs invoke now (fetchBatch db) db
  · have hnodup : ((db.events.filter fun x =>
        !decide (findRow (pollAndProcess invoke now db) x.id = some x)).map
          fun x => x.id).Nodup :=
      ((List.filter_sublist _).map _).nodup hids
    have hsub : ((db.events.filter fun x =>
        !decide (findRow (pollAndProcess invoke now db) x.id = some x)).map
          fun x => x.id) ⊆ ((fetchBatch db).map fun e => e.id) := by
      intro i hi
      rcases List.mem_map.mp hi with ⟨x, hxL, rfl⟩
      have hxf := List.mem_filter.mp hxL
      by_contra hnotin
      have hrow := hframe x hxf.1 hnotin
      have := hxf.2
      rw [hrow] at this
      simp at this
    calc (db.events.filter fun x =>
          !decide (findRow (pollAndProcess invoke now db) x.id = some x)).length
        = ((db.events.filter fun x =>
            !decide (findRow (pollAndProcess invoke now db) x.id
              = some x)).map fun x => x.id).length := (List.length_map _ _).symm
      _ ≤ ((fetchBatch db).map fun e => e.id).length :=
          nodup_length_le _ _ hnodup hsub
      _ = (fetchBatch db).length := List.length_map _ _
      _ ≤ BATCH_SIZE := fetchBatch_length_le db

/-- C5 witness: 12 pending events; the fetched batch has at most 10 events
and at most 10 rows change in the cycle. -/
theorem C5_batch_bound_order_and_frame_witness :
    let mk : Nat → OutboxEvent := fun i =>
      { id := Nat.repr i, aggregateId := "u", eventType := "user.created",
        payload := "p", processed := false, processedAt := none,
        attempts := 0, lastError := none, createdAt := 20 - i }
    let db : Db :=
      { users := [], events := (List.range 12).map mk, auditLogs := [],
        digestBatches := [], nextId := 0 }
    let invoke : Invoke := fun _ _ => HandlerOutcome.success none
    (fetchBatch db).length ≤ BATCH_SIZE ∧
    (fetchBatch db).Pairwise (fun a b => a.createdAt ≤ b.createdAt) ∧
    (db.events.filter fun x =>
      !decide (findRow (pollAndProcess invoke 3 db) x.id = some x)).length
      ≤ BATCH_SIZE := by
  intro mk db invoke
  have h := C5_batch_bound_order_and_frame invoke 3 db (by decide)
  exact ⟨h.1, h.2.2.1, h.2.2.2.2.2⟩

/-- C8: the enqueue is atomic with the enclosing business transaction: a
transaction that enqueues an event and then fails rolls the whole state back
(the event row does not persist), a committed lone enqueue appends exactly
the one created row (with `processed=false`, `attempts=0`), and a storage
error from the underlying create is surfaced to the caller uncaught. -/
theorem C8_atomic_enqueue_and_error_surfacing
    (db : Db) (p : CreateOutboxEventParams) (now : Nat) (err msg : String) :
    runTransaction db (fun s =>
        (createOutboxEventRes none p now s).bind fun _r => Except.error err)
      = (Except.error err, db) ∧
    runTransaction db (fun s =>
        (createOutboxEventRes none p now s).map fun r => r.2)
      = (Except.ok { db with
           events := db.events
             ++ [createOutboxEventRow p ("evt-" ++ toString db.nextId) now],
           nextId := db.nextId + 1 },
         { db with
           events := db.events
             ++ [createOutboxEventRow p ("evt-" ++ toString db.nextId) now],
           nextId := db.nextId + 1 }) ∧
    (createOutboxEventRow p ("evt-" ++ toString db.nextId) now).processed
      = false ∧
    (createOutboxEventRow p ("evt-" ++ toString db.nextId) now).attempts = 0 ∧
    createOutboxEventRes (some msg) p now db = Except.error msg := by
  exact ⟨rfl, rfl, rfl, rfl, rfl⟩

lemma isEmpty_eq_false_of_ne_nil {α : Type} (l : List α) (h : l ≠ []) :
    l.isEmpty = false := by
  cases l with
  | nil => exact absurd rfl h
  | cons a t => rfl

/-- The creating branch of the weekly-digest handler: no prior batch for the
key, at least one active user, transaction succeeds. -/
lemma weeklyDigest_run_batch (key : Option String) (now : Nat) (db : Db)
    (hkey : (match key with
      | some k => findDigestBatch db k
      | none => none) = none)
    (hne : (db.users.filter fun u => u.deletedAt.isNone).isEmpty = false) :
    weeklyDigest key now false db
      = ({ status := 200,
           message := "Weekly digest events created successfully",
           userCount := some (db.users.filter fun u =>
             u.deletedAt.isNone).length,
           batchStatus := none, idempotent := false },
         { ((db.users.filter fun u => u.deletedAt.isNone).foldl (fun d u =>
             (createOutboxEvent (digestParams u) now d).2) db) with
           digestBatches := ((db.users.filter fun u =>
               u.deletedAt.isNone).foldl (fun d u =>
             (createOutboxEvent (digestParams u) now d).2) db).digestBatches
             ++ [{ idempotencyKey := key,
                   userCount := (db.users.filter fun u =>
                     u.deletedAt.isNone).length,
                   status := "completed", createdAt := now }] }) := by
  unfold weeklyDigest
  rw [hkey]
  simp [hne]

/-- The failing branch of the weekly-digest handler: no prior batch for the
key, at least one active user, transaction fails; the catch block records
the failed batch outside the transaction. -/
lemma weeklyDigest_run_batch_fails (k : String) (now : Nat) (db : Db)
    (hkey : findDigestBatch db k = none)
    (hne : (db.users.filter fun u => u.deletedAt.isNone).isEmpty = false) :
    weeklyDigest (some k) now true db
      = ({ status := 500, message := "Internal server error",
           userCount := none, batchStatus := none, idempotent := false },
         { db with
           digestBatches := db.digestBatches
             ++ [{ idempotencyKey := some k, userCount := 0,
                   status := "failed", createdAt := now }] }) := by
  unfold weeklyDigest
  rw [show (match some k with
    | some k2 => findDigestBatch db k2
    | none => none) = findDigestBatch db k from rfl, hkey]
  simp [hne]

/-- The replay branch of the weekly-digest handler: a batch row exists for
the supplied key, so its cached result is returned and nothing runs. -/
lemma weeklyDigest_replay (k : String) (now : Nat) (tf : Bool) (db : Db)
    (b : DigestBatch) (hfind : findDigestBatch db k = some b) :
    weeklyDigest (some k) now tf db
      = ({ status := 200
           message := if b.status = "completed" then
               "Digest events already created for this idempotency key"
             else
               "Previous attempt with this idempotency key failed"
           userCount := some b.userCount
           batchStatus := some b.status
           idempotent := true }, db) := by
  unfold weeklyDigest
  rw [show (match some k with
    | some k2 => findDigestBatch db k2
    | none => none) = findDigestBatch db k from rfl, hfind]

lemma enqueueDigest_foldl (now : Nat) :
    ∀ (us : List User) (db : Db),
      ((us.foldl (fun d u =>
          (createOutboxEvent (digestParams u) now d).2) db).events.length
        = db.events.length + us.length) ∧
      ((us.foldl (fun d u =>
          (createOutboxEvent (digestParams u) now d).2) db).digestBatches
        = db.digestBatches) ∧
      ((us.foldl (fun d u =>
          (createOutboxEvent (digestParams u) now d).2) db).users
        = db.users)
  | [], db => by simp
  | u :: t, db => by
    rw [List.foldl_cons]
    have ih := enqueueDigest_foldl now t
      ((createOutboxEvent (digestParams u) now db).2)
    refine ⟨?_, ?_, ?_⟩
    · rw [ih.1]
      simp [createOutboxEvent]
      omega
    · rw [ih.2.1]
      rfl
    · rw [ih.2.2]
      rfl

/-- C10: when a keyed weekly-digest run fails inside the batch transaction,
the transaction's enqueues are rolled back but a `DigestBatch` row with that
key, `status='failed'`, `userCount=0` is recorded outside it (catch block);
every subsequent call with the same key then replays that cached failure
(`idempotent: true`) without touching the state — the batch is never re-run
under that key. -/
theorem C10_failed_keyed_run_blocks_reexecution
    (db : Db) (k : String) (now : Nat)
    (hkey : findDigestBatch db k = none)
    (husers : (db.users.filter fun u => u.deletedAt.isNone) ≠ []) :
    (weeklyDigest (some k) now true db).1
      = { status := 500, message := "Internal server error",
          userCount := none, batchStatus := none, idempotent := false } ∧
    ((weeklyDigest (some k) now true db).2).events = db.events ∧
    ((weeklyDigest (some k) now true db).2).digestBatches
      = db.digestBatches
        ++ [{ idempotencyKey := some k, userCount := 0, status := "failed",
              createdAt := now }] ∧
    (∀ now2 tf2,
      weeklyDigest (some k) now2 tf2 ((weeklyDigest (some k) now true db).2)
        = ({ status := 200,
             message := "Previous attempt with this idempotency key failed",
             userCount := some 0, batchStatus := some "failed",
             idempotent := true },
           (weeklyDigest (some k) now true db).2)) := by
  have hne := isEmpty_eq_false_of_ne_nil _ husers
  have hW := weeklyDigest_run_batch_fails k now db hkey hne
  rw [hW]
  refine ⟨rfl, rfl, rfl, ?_⟩
  intro now2 tf2
  have hfind : findDigestBatch
      { db with
        digestBatches := db.digestBatches
          ++ [{ idempotencyKey := some k, userCount := 0,
                status := "failed", createdAt := now }] } k
      = some { idempotencyKey := some k, userCount := 0,
               status := "failed", createdAt := now } := by
    unfold findDigestBatch at hkey ⊢
    rw [show ({ db with
        digestBatches := db.digestBatches
          ++ [{ idempotencyKey := some k, userCount := 0,
                status := "failed", createdAt := now }] } : Db).digestBatches
      = db.digestBatches
        ++ [{ idempotencyKey := some k, userCount := 0,
              status := "failed", createdAt := now }] from rfl,
      List.find?_append, hkey]
    simp
  rw [weeklyDigest_replay k now2 tf2 _ _ hfind]
  rw [show (({ idempotencyKey := some k, userCount := 0,
               status := "failed", createdAt := now } : DigestBatch).status)
    = "failed" from rfl]
  rw [if_neg (by decide : ¬("failed" : String) = "completed")]

/-- C10 witness at a concrete input. -/
theorem C10_failed_keyed_run_blocks_reexecution_witness :
    let db : Db :=
      { users := [{ id := "u1", email := "a@b.c", name := "A",
                    deletedAt := none }],
        events := [], auditLogs := [], digestBatches := [], nextId := 0 }
    (weeklyDigest (some "2026-W07") 10 true db).1.status = 500 ∧
    ((weeklyDigest (some "2026-W07") 10 true db).2).events = [] ∧
    (∀ tf2, weeklyDigest (some "2026-W07") 99 tf2
        ((weeklyDigest (some "2026-W07") 10 true db).2)
      = ({ status := 200,
           message := "Previous attempt with this idempotency key failed",
           userCount := some 0, batchStatus := some "failed",
           idempotent := true },
         (weeklyDigest (some "2026-W07") 10 true db).2)) := by
  intro db
  have h := C10_failed_keyed_run_blocks_reexecution db "2026-W07" 10
    (by decide) (by decide)
  refine ⟨by rw [h.1], h.2.1, fun tf2 => h.2.2.2 99 tf2⟩

/-- C4 counterexample: with every user soft-deleted there is no active
recipient, and the handler answers "No active users" WITHOUT recording any
`DigestBatch` row; a second call with the same key therefore finds no batch,
takes the same path again, zero rows exist for the key and the second
response is not an idempotent replay — so the claim as stated (for every
pair of same-key calls, exactly one `DigestBatch` row exists and the second
response is marked `idempotent: true`) fails at this input. -/
theorem C4_idempotent_trigger_counterexample :
    let db : Db :=
      { users := [{ id := "u1", email := "a@b.c", name := "A",
                    deletedAt := some 5 }],
        events := [], auditLogs := [], digestBatches := [], nextId := 0 }
    (((weeklyDigest (some "2026-W07") 1 false
        (weeklyDigest (some "2026-W07") 0 false db).2).2).digestBatches.filter
      fun b => b.idempotencyKey = some "2026-W07").length = 0 ∧
    (weeklyDigest (some "2026-W07") 1 false
        (weeklyDigest (some "2026-W07") 0 false db).2).1.idempotent
      = false := by
  decide

/-- C4 (amended): provided at least one active (non-soft-deleted) user
exists and the first call's batch transaction succeeds, two weekly-digest
trigger calls with the same non-null idempotency key (no batch row existing
for it beforehand) have the side effects of the first call only: the first
call enqueues one event per active user and records one `DigestBatch` row
for the key (exactly one such row exists afterwards), and the second call
returns the stored batch's cached result marked `idempotent: true` with the
state unchanged. -/
theorem C4_idempotent_batch_trigger
    (db : Db) (k : String) (now1 now2 : Nat)
    (hkey : findDigestBatch db k = none)
    (husers : (db.users.filter fun u => u.deletedAt.isNone) ≠ []) :
    ((weeklyDigest (some k) now1 false db).2.events.length
        = db.events.length
          + (db.users.filter fun u => u.deletedAt.isNone).length) ∧
    (((weeklyDigest (some k) now1 false db).2.digestBatches.filter fun b =>
        b.idempotencyKey = some k).length = 1) ∧
    weeklyDigest (some k) now2 false (weeklyDigest (some k) now1 false db).2
      = ({ status := 200,
           message := "Digest events already created for this idempotency key",
           userCount := some (db.users.filter fun u =>
             u.deletedAt.isNone).length,
           batchStatus := some "completed", idempotent := true },
         (weeklyDigest (some k) now1 false db).2) := by
  have hne := isEmpty_eq_false_of_ne_nil _ husers
  have hW := weeklyDigest_run_batch (some k) now1 db hkey hne
  have hF := enqueueDigest_foldl now1
    (db.users.filter fun u => u.deletedAt.isNone) db
  have hkey2 : ∀ b ∈ db.digestBatches, ¬(b.idempotencyKey = some k) := by
    intro b hb
    have := List.find?_eq_none.mp hkey b hb
    simpa using this
  have hnil : db.digestBatches.filter
      (fun b => b.idempotencyKey = some k) = [] := by
    rw [List.filter_eq_nil_iff]
    intro b hb
    simpa using hkey2 b hb
  have hdbs : ((weeklyDigest (some k) now1 false db).2).digestBatches
      = db.digestBatches
        ++ [{ idempotencyKey := some k,
              userCount := (db.users.filter fun u =>
                u.deletedAt.isNone).length,
              status := "completed", createdAt := now1 }] := by
    rw [hW, hF.2.1]
  refine ⟨?_, ?_, ?_⟩
  · rw [hW]
    exact hF.1
  · rw [hdbs, List.filter_append, hnil, List.length_append]
    simp
  · have hfind : findDigestBatch ((weeklyDigest (some k) now1 false db).2) k
        = some { idempotencyKey := some k,
                 userCount := (db.users.filter fun u =>
                   u.deletedAt.isNone).length,
                 status := "completed", createdAt := now1 } := by
      unfold findDigestBatch at hkey ⊢
      rw [hdbs, List.find?_append, hkey]
      simp
    rw [weeklyDigest_replay k now2 false _ _ hfind]
    rw [show (({ idempotencyKey := some k,
                 userCount := (db.users.filter fun u =>
                   u.deletedAt.isNone).length,
                 status := "completed",
                 createdAt := now1 } : DigestBatch).status)
      = "completed" from rfl]
    rw [if_pos rfl]

/-- C4 witness at a concrete input: one active user, key reused. -/
theorem C4_idempotent_batch_trigger_witness :
    let db : Db :=
      { users := [{ id := "u1", email := "a@b.c", name := "A",
                    deletedAt := none }],
        events := [], auditLogs := [], digestBatches := [], nextId := 0 }
    (weeklyDigest (some "W1") 0 false db).2.events.length = 1 ∧
    (((weeklyDigest (some "W1") 0 false db).2.digestBatches.filter fun b =>
        b.idempotencyKey = some "W1").length = 1) ∧
    weeklyDigest (some "W1") 7 false (weeklyDigest (some "W1") 0 false db).2
      = ({ status := 200,
           message := "Digest events already created for this idempotency key",
           userCount := some 1, batchStatus := some "completed",
           idempotent := true },
         (weeklyDigest (some "W1") 0 false db).2) := by
  intro db
  have h := C4_idempotent_batch_trigger db "W1" 0 7 (by decide) (by decide)
  exact ⟨h.1, h.2.1, h.2.2⟩

end Outbox
